import Mathlib

/-!
Verification of the order-status-checker bot (single source file
`index archive/2025.11.04 before adding customer repsonse.js`).

The JavaScript source is shallowly embedded below.  Conventions:
* metafield values, order fields that may be `null`/`undefined` are `Option`;
* epoch timestamps are `Int` milliseconds (ISO-string parsing is transport);
* JS number arithmetic in `weeksSince` is modelled over `ℚ`
  (all quantities involved are exactly representable at the inputs used);
* narrative lines are an inductive datatype, one constructor per string
  literal pushed by `analyzeOrder`; `renderBlurbLine` maps them back to the
  source text (JS number-to-string formatting is abstracted by `toString`).
-/

/- ===== JS helpers (lines 87-97 of the source) ===== -/

/-- `x || fallback` on an optional string: JS treats `''` as falsy. -/
def jsOr (s : Option String) (fb : String) : String :=
  match s with
  | none => fb
  | some v => if v = "" then fb else v

/-- A `metafield(...) { value }` projection: either absent or `{ value }`. -/
structure Metafield where
  value : Option String
deriving DecidableEq, Repr

/-- JS `String.prototype.trim`: strip whitespace from both ends.  (Defined
over the character list so that it is structurally recursive.) -/
def jsTrim (s : String) : String :=
  String.mk (((s.data.dropWhile Char.isWhitespace).reverse.dropWhile Char.isWhitespace).reverse)

/-- JS `String.prototype.toUpperCase` restricted to ASCII, which covers every
enum constant the source compares against.  (Defined over the character list
so that it is structurally recursive.) -/
def jsToUpper (s : String) : String :=
  String.mk (s.data.map Char.toUpper)

/-- `val` (source line 87): trim the metafield value, empty/absent gives `''`. -/
def val (mf : Option Metafield) : String :=
  match mf with
  | none => ""
  | some m =>
    match m.value with
    | none => ""
    | some v => if jsTrim v = "" then "" else jsTrim v

/-- `isYes` (source line 91): uppercase the subject only. -/
def isYes (s : String) (yes : String) : Bool :=
  jsToUpper s == yes

/-- `isEq` (source line 92): uppercase both sides. -/
def isEq (s target : String) : Bool :=
  jsToUpper s == jsToUpper target

/- ===== weeksSince (source lines 99-106) ===== -/

/-- Milliseconds in one week: `1000 * 60 * 60 * 24 * 7`. -/
def msPerWeek : ℚ := 1000 * 60 * 60 * 24 * 7

/-- JS `Math.round`: round half toward positive infinity. -/
def jsRound (q : ℚ) : ℤ := ⌊q + 1/2⌋

/-- `weeksSince` (source line 99): elapsed ms / week, `Math.round(w*10)/10`.
`now` is the evaluation instant (`new Date()`), `dateMs` the event instant. -/
def weeksSince (now : ℤ) (dateMs : Option ℤ) : Option ℚ :=
  match dateMs with
  | none => none
  | some d =>
    let ms : ℚ := ((now - d : ℤ) : ℚ)
    let weeks := ms / msPerWeek
    some ((jsRound (weeks * 10) : ℚ) / 10)

/-- Round half away from zero (what the spec asserts for `weeksSince`). -/
def roundHalfAwayFromZero (q : ℚ) : ℤ :=
  if 0 ≤ q then ⌊q + 1/2⌋ else -⌊-q + 1/2⌋

/-- Spec-side elapsed-weeks value: elapsed ms / week to one decimal,
half away from zero. -/
def roundHalfAwayWeeks (now d : ℤ) : ℚ :=
  (roundHalfAwayFromZero (((now - d : ℤ) : ℚ) / msPerWeek * 10) : ℚ) / 10

/- ===== Order record (the GraphQL projection, source lines 28-59) ===== -/

structure Fulfillment where
  createdAt : Option ℤ
  status : Option String
deriving DecidableEq, Repr

structure Order where
  id : Option String
  name : Option String
  createdAt : Option ℤ
  displayFulfillmentStatus : Option String
  customerDisplayName : Option String
  fulfillments : Option (List Fulfillment)
  weeksSinceOrder : Option Metafield
  arrangeStatus : Option Metafield
  arrangedWith : Option Metafield
  incoming : Option Metafield
  reserveIncoming : Option Metafield
  readyToContact : Option Metafield
  needsFollowUp : Option Metafield
  followUpNotes : Option Metafield
  owesReturn : Option Metafield
  returnNotes : Option Metafield
  invoicedWith : Option Metafield
deriving DecidableEq, Repr

/-- `mostRecentFulfillmentAt` (source lines 109-117): sort the defined
`createdAt` stamps descending, take the first — i.e. the maximum. -/
def mostRecentFulfillmentAt (o : Order) : Option ℤ :=
  let list := o.fulfillments.getD []
  if list.isEmpty then none
  else (list.filterMap Fulfillment.createdAt).max?

/-- Models the `SHOPIFY_DOMAIN` environment configuration (read once at
startup; its concrete value never matters to any claim). -/
def shopifyDomain : String := "example.myshopify.com"

/-- `adminOrderUrlFromGid` (source lines 119-124): last `/`-segment of the
gid, or the bare admin URL when the gid is absent/empty. -/
def adminOrderUrlFromGid (gid : Option String) : String :=
  let numericId :=
    match gid with
    | none => ""
    | some g => ((g.splitOn "/").getLast?).getD ""
  if numericId ≠ "" then "https://" ++ shopifyDomain ++ "/admin/orders/" ++ numericId
  else "https://" ++ shopifyDomain ++ "/admin"

/- ===== Normalized metafields (source lines 135-147) ===== -/

structure Mf where
  weeks : String
  arrangeStatus : String
  arrangedWith : String
  incoming : String
  reserveIncoming : String
  readyToContact : String
  needsFollowUp : String
  followUpNotes : String
  owesReturn : String
  returnNotes : String
  invoice : String
deriving DecidableEq, Repr

def normalizeMf (o : Order) : Mf where
  weeks := val o.weeksSinceOrder
  arrangeStatus := jsToUpper (val o.arrangeStatus)
  arrangedWith := val o.arrangedWith
  incoming := jsToUpper (val o.incoming)
  reserveIncoming := jsToUpper (val o.reserveIncoming)
  readyToContact := jsToUpper (val o.readyToContact)
  needsFollowUp := jsToUpper (val o.needsFollowUp)
  followUpNotes := val o.followUpNotes
  owesReturn := jsToUpper (val o.owesReturn)
  returnNotes := val o.returnNotes
  invoice := val o.invoicedWith

/-- `isFulfilled` (source line 164): `(dispFulfill || '').toUpperCase() ===
'FULFILLED'`, where `dispFulfill = order?.displayFulfillmentStatus || '—'`. -/
def isFulfilledOf (o : Order) : Bool :=
  jsToUpper (jsOr o.displayFulfillmentStatus "—") == "FULFILLED"

/-- The inputs `analyzeOrder`'s rules read (all fixed before any rule runs). -/
structure Ctx where
  mf : Mf
  isFulfilled : Bool
  w : Option ℚ
deriving DecidableEq, Repr

def mkCtx (now : ℤ) (o : Order) : Ctx where
  mf := normalizeMf o
  isFulfilled := isFulfilledOf o
  w := weeksSince now (mostRecentFulfillmentAt o)

/- ===== Narrative lines and details (source lines 151-236) ===== -/

/-- One constructor per string literal `analyzeOrder` pushes onto `blurb`. -/
inductive BlurbLine where
  | fulfilled (w : Option ℚ)
  | notFulfilled (weeks : String)
  | needToArrange
  | arrangedNotIncoming
  | partIncoming
  | incoming
  | readyToContact
  | contactLater
  | needsFollowUp
  | reservedIncoming
  | owesReturn
  | noExceptions
deriving DecidableEq, Repr

/-- The source text of each narrative line (number formatting abstracted). -/
def renderBlurbLine : BlurbLine → String
  | .fulfilled w =>
    "✅ Fulfilled " ++
      (match w with
       | some q => toString q ++ " weeks ago"
       | none => "(date unavailable)") ++ "."
  | .notFulfilled weeks =>
    "⏳ Not yet fulfilled (" ++
      (if weeks = "" then "age unknown" else weeks ++ " weeks open") ++ ")."
  | .needToArrange => "🧩 Not yet arranged with supplier — check Follow-Up Notes for the reason."
  | .arrangedNotIncoming => "🛠️ Arranged with supplier (not yet incoming)."
  | .partIncoming => "📦 Partially incoming: some items are on the way; others still arranged/not invoiced."
  | .incoming => "📦 Incoming from supplier — pending arrival & final QC."
  | .readyToContact => "📞 Ready to contact customer (team should coordinate next steps)."
  | .contactLater => "⏲️ Contact later: items are here & passed QC, but it’s not yet time to contact."
  | .needsFollowUp => "⚠️ Needs follow-up — see details for context."
  | .reservedIncoming => "🏷️ Reserved incoming inventory earmarked for this order."
  | .owesReturn => "↩️ Customer owes a return."
  | .noExceptions => "ℹ️ No exceptions detected."

/-- A detail entry.  The source pushes `{label, value}` and records the dedup
`key` in a separate `Set`; the key is carried on the entry here so that the
deduplication invariant can be stated, and is invisible to rendering. -/
structure DetailEntry where
  key : String
  label : String
  value : String
deriving DecidableEq, Repr

/-- The mutable state of `analyzeOrder`: `blurb`, `details`, `detailsAdded`. -/
structure AState where
  blurb : List BlurbLine
  details : List DetailEntry
  added : List String
deriving DecidableEq, Repr

/-- `addDetail` (source lines 155-160): skip falsy values and seen keys. -/
def addDetail (s : AState) (key label value : String) : AState :=
  if value = "" then s
  else if key ∈ s.added then s
  else { s with details := s.details ++ [⟨key, label, value⟩], added := s.added ++ [key] }

def pushBlurb (s : AState) (l : BlurbLine) : AState :=
  { s with blurb := s.blurb ++ [l] }

/- Rule guard conditions, verbatim from the source conditionals. -/

def fires2 (c : Ctx) : Bool := isEq c.mf.arrangeStatus "NEED TO ARRANGE"
def fires3 (c : Ctx) : Bool := isEq c.mf.arrangeStatus "ARRANGED" && !isYes c.mf.incoming "INCOMING"
def fires4 (c : Ctx) : Bool := isYes c.mf.incoming "INCOMING"
def fires5a (c : Ctx) : Bool := isEq c.mf.readyToContact "READY TO CONTACT"
def fires5b (c : Ctx) : Bool := isEq c.mf.readyToContact "CONTACT LATER"
def fires6 (c : Ctx) : Bool := isEq c.mf.needsFollowUp "NEEDS FOLLOW-UP"
def fires7 (c : Ctx) : Bool := isEq c.mf.reserveIncoming "RESERVED INCOMING INVENTORY"
def fires8 (c : Ctx) : Bool := isEq c.mf.owesReturn "OWES RETURN"

/-- Rule 1 (source lines 162-171): fulfilled vs not. -/
def rule1 (c : Ctx) (s : AState) : AState :=
  if c.isFulfilled then
    addDetail (pushBlurb s (BlurbLine.fulfilled c.w)) "invoice" "Invoiced With" c.mf.invoice
  else
    pushBlurb s (BlurbLine.notFulfilled c.mf.weeks)

/-- Rule 2 (source lines 173-178): NEED TO ARRANGE. -/
def rule2 (c : Ctx) (s : AState) : AState :=
  if fires2 c then
    let s1 := pushBlurb s BlurbLine.needToArrange
    let s2 := addDetail s1 "followUpNotes" "Follow-Up Notes" c.mf.followUpNotes
    if !c.isFulfilled then addDetail s2 "weeks" "Weeks Since Order" c.mf.weeks else s2
  else s

/-- Rule 3 (source lines 180-185): ARRANGED but not yet incoming. -/
def rule3 (c : Ctx) (s : AState) : AState :=
  if fires3 c then
    let s1 := pushBlurb s BlurbLine.arrangedNotIncoming
    let s2 := addDetail s1 "arrangedWith" "Arranged With" c.mf.arrangedWith
    if !c.isFulfilled then addDetail s2 "weeks" "Weeks Since Order" c.mf.weeks else s2
  else s

/-- Rule 4 (source lines 187-198): INCOMING. -/
def rule4 (c : Ctx) (s : AState) : AState :=
  if fires4 c then
    let s1 :=
      if isEq c.mf.arrangeStatus "ARRANGED" then
        addDetail (pushBlurb s BlurbLine.partIncoming) "followUpNotes" "Follow-Up Notes" c.mf.followUpNotes
      else pushBlurb s BlurbLine.incoming
    let s2 := addDetail s1 "invoice" "Invoiced With" c.mf.invoice
    if !c.isFulfilled then addDetail s2 "weeks" "Weeks Since Order" c.mf.weeks else s2
  else s

/-- Rule 5 (source lines 200-208): READY TO CONTACT / CONTACT LATER. -/
def rule5 (c : Ctx) (s : AState) : AState :=
  if fires5a c then
    addDetail (pushBlurb s BlurbLine.readyToContact) "invoice" "Invoiced With" c.mf.invoice
  else if fires5b c then
    addDetail
      (addDetail (pushBlurb s BlurbLine.contactLater) "weeks" "Weeks Since Order" c.mf.weeks)
      "invoice" "Invoiced With" c.mf.invoice
  else s

/-- Rule 6 (source lines 210-214): NEEDS FOLLOW-UP. -/
def rule6 (c : Ctx) (s : AState) : AState :=
  if fires6 c then
    addDetail (pushBlurb s BlurbLine.needsFollowUp) "followUpNotes" "Follow-Up Notes" c.mf.followUpNotes
  else s

/-- Rule 7 (source lines 216-220): RESERVED INCOMING INVENTORY. -/
def rule7 (c : Ctx) (s : AState) : AState :=
  if fires7 c then
    addDetail (pushBlurb s BlurbLine.reservedIncoming) "arrangedWith" "Arranged/Reserved With" c.mf.arrangedWith
  else s

/-- Rule 8 (source lines 222-226): OWES RETURN. -/
def rule8 (c : Ctx) (s : AState) : AState :=
  if fires8 c then
    addDetail (pushBlurb s BlurbLine.owesReturn) "returnNotes" "Return Notes" c.mf.returnNotes
  else s

/-- Source lines 228-230: push the sentinel when the narrative is empty. -/
def noExceptionsStep (s : AState) : AState :=
  if s.blurb.length = 0 then pushBlurb s BlurbLine.noExceptions else s

structure AnalysisResult where
  headerText : String
  blurbLines : List BlurbLine
  details : List DetailEntry
  footer : List String
deriving DecidableEq, Repr

/-- `analyzeOrder` (source lines 130-236). -/
def analyzeOrder (now : ℤ) (o : Order) : AnalysisResult :=
  let c := mkCtx now o
  let s := noExceptionsStep
    (rule8 c (rule7 c (rule6 c (rule5 c (rule4 c (rule3 c (rule2 c (rule1 c ⟨[], [], []⟩))))))))
  { headerText := jsOr o.name "—" ++ " — " ++ jsOr o.customerDisplayName "—"
    blurbLines := s.blurb
    details := s.details
    footer := ["<" ++ adminOrderUrlFromGid o.id ++ "|Open in Shopify Admin>"] }

/- ===== Specification views of the rule pipeline =====
These definitions restate each rule as "the narrative lines it appends" and
"the detail entries it requests, in request order"; the characterization
lemmas below prove `analyzeOrder` equal to them.  They are derived from the
same source lines as the rules. -/

def applyReqs (s : AState) (reqs : List DetailEntry) : AState :=
  reqs.foldl (fun t e => addDetail t e.key e.label e.value) s

def pushLines (s : AState) (ls : List BlurbLine) : AState :=
  { s with blurb := s.blurb ++ ls }

def weeksReq (c : Ctx) : List DetailEntry :=
  if !c.isFulfilled then [⟨"weeks", "Weeks Since Order", c.mf.weeks⟩] else []

def ruleLines1 (c : Ctx) : List BlurbLine :=
  if c.isFulfilled then [.fulfilled c.w] else [.notFulfilled c.mf.weeks]
def ruleReqs1 (c : Ctx) : List DetailEntry :=
  if c.isFulfilled then [⟨"invoice", "Invoiced With", c.mf.invoice⟩] else []
def ruleLines2 (c : Ctx) : List BlurbLine :=
  if fires2 c then [.needToArrange] else []
def ruleReqs2 (c : Ctx) : List DetailEntry :=
  if fires2 c then ⟨"followUpNotes", "Follow-Up Notes", c.mf.followUpNotes⟩ :: weeksReq c else []
def ruleLines3 (c : Ctx) : List BlurbLine :=
  if fires3 c then [.arrangedNotIncoming] else []
def ruleReqs3 (c : Ctx) : List DetailEntry :=
  if fires3 c then ⟨"arrangedWith", "Arranged With", c.mf.arrangedWith⟩ :: weeksReq c else []
def ruleLines4 (c : Ctx) : List BlurbLine :=
  if fires4 c then [if isEq c.mf.arrangeStatus "ARRANGED" then .partIncoming else .incoming] else []
def ruleReqs4 (c : Ctx) : List DetailEntry :=
  if fires4 c then
    (if isEq c.mf.arrangeStatus "ARRANGED" then [⟨"followUpNotes", "Follow-Up Notes", c.mf.followUpNotes⟩] else [])
      ++ ⟨"invoice", "Invoiced With", c.mf.invoice⟩ :: weeksReq c
  else []
def ruleLines5 (c : Ctx) : List BlurbLine :=
  if fires5a c then [.readyToContact] else if fires5b c then [.contactLater] else []
def ruleReqs5 (c : Ctx) : List DetailEntry :=
  if fires5a c then [⟨"invoice", "Invoiced With", c.mf.invoice⟩]
  else if fires5b c then
    [⟨"weeks", "Weeks Since Order", c.mf.weeks⟩, ⟨"invoice", "Invoiced With", c.mf.invoice⟩]
  else []
def ruleLines6 (c : Ctx) : List BlurbLine :=
  if fires6 c then [.needsFollowUp] else []
def ruleReqs6 (c : Ctx) : List DetailEntry :=
  if fires6 c then [⟨"followUpNotes", "Follow-Up Notes", c.mf.followUpNotes⟩] else []
def ruleLines7 (c : Ctx) : List BlurbLine :=
  if fires7 c then [.reservedIncoming] else []
def ruleReqs7 (c : Ctx) : List DetailEntry :=
  if fires7 c then [⟨"arrangedWith", "Arranged/Reserved With", c.mf.arrangedWith⟩] else []
def ruleLines8 (c : Ctx) : List BlurbLine :=
  if fires8 c then [.owesReturn] else []
def ruleReqs8 (c : Ctx) : List DetailEntry :=
  if fires8 c then [⟨"returnNotes", "Return Notes", c.mf.returnNotes⟩] else []

/-- All narrative lines, in rule order. -/
def allLines (c : Ctx) : List BlurbLine :=
  ruleLines1 c ++ ruleLines2 c ++ ruleLines3 c ++ ruleLines4 c
    ++ ruleLines5 c ++ ruleLines6 c ++ ruleLines7 c ++ ruleLines8 c

/-- All detail requests, in the order the rules issue them. -/
def detailRequests (c : Ctx) : List DetailEntry :=
  ruleReqs1 c ++ ruleReqs2 c ++ ruleReqs3 c ++ ruleReqs4 c
    ++ ruleReqs5 c ++ ruleReqs6 c ++ ruleReqs7 c ++ ruleReqs8 c

/-- First-writer-wins deduplication of a request list against a seen-key set;
mirrors the checks of `addDetail` in order. -/
def dedupFirst : List DetailEntry → List String → List DetailEntry
  | [], _ => []
  | e :: es, seen =>
    if e.value = "" then dedupFirst es seen
    else if e.key ∈ seen then dedupFirst es seen
    else e :: dedupFirst es (seen ++ [e.key])

/-- The six possible detail requests (key, label, value triples). -/
def masterRequests (c : Ctx) : List DetailEntry :=
  [⟨"invoice", "Invoiced With", c.mf.invoice⟩,
   ⟨"followUpNotes", "Follow-Up Notes", c.mf.followUpNotes⟩,
   ⟨"weeks", "Weeks Since Order", c.mf.weeks⟩,
   ⟨"arrangedWith", "Arranged With", c.mf.arrangedWith⟩,
   ⟨"arrangedWith", "Arranged/Reserved With", c.mf.arrangedWith⟩,
   ⟨"returnNotes", "Return Notes", c.mf.returnNotes⟩]

/- ===== getOrderByName (source lines 61-82) ===== -/

structure GqlEdge where
  node : Option Order
deriving DecidableEq, Repr

structure GqlOrders where
  edges : List GqlEdge
deriving DecidableEq, Repr

/-- The `data` member of the response body: `{ errors?, orders? }`. -/
structure GqlData where
  errors : Option (List String)
  orders : Option GqlOrders
deriving DecidableEq, Repr

/-- The parsed response body: `{ errors?, data? }`. -/
structure GqlBody where
  errors : Option (List String)
  data : Option GqlData
deriving DecidableEq, Repr

/-- The transport result: HTTP success flag, status, parsed JSON body. -/
structure HttpResp where
  ok : Bool
  status : Nat
  body : GqlBody
deriving DecidableEq, Repr

/-- `data?.data?.orders?.edges?.[0]?.node ?? null` (source line 81). -/
def firstNode (b : GqlBody) : Option Order :=
  ((b.data.bind GqlData.orders).bind (fun os => os.edges.head?)).bind GqlEdge.node

/-- `getOrderByName` (source lines 61-82), given the transport response. -/
def getOrderByName (resp : HttpResp) : Except String (Option Order) :=
  if !resp.ok then Except.error ("Shopify HTTP " ++ toString resp.status)
  else if (resp.body.errors.getD []).length ≠ 0 then Except.error "Shopify GQL errors"
  else if ((resp.body.data.bind GqlData.errors).getD []).length ≠ 0 then Except.error "Shopify data.errors"
  else Except.ok (firstNode resp.body)

/- ===== Field chunking (source lines 283-297) ===== -/

/-- The mrkdwn text of one Slack field: `*${label}*\n${value || '—'}`. -/
def mkField (d : DetailEntry) : String :=
  "*" ++ d.label ++ "*" ++ "\n" ++ (if d.value = "" then "—" else d.value)

/-- The chunking loop (source lines 284-293): flush `current` at 10. -/
def fieldChunksAux : List DetailEntry → List (List String) → List String → List (List String)
  | [], chunks, current => if current.length = 0 then chunks else chunks ++ [current]
  | d :: ds, chunks, current =>
    let current2 := current ++ [mkField d]
    if current2.length = 10 then fieldChunksAux ds (chunks ++ [current2]) []
    else fieldChunksAux ds chunks current2

def fieldChunks (details : List DetailEntry) : List (List String) :=
  fieldChunksAux details [] []

/- ===== ORDER_REGEX matching (source lines 16, 246) =====
`/\bC#\d{4,5}\b/g` over `event.text`, via `matchAll`, mapped to `m[0]`.
The scanner below is the regex semantics made explicit: at each position a
match needs `C`, `#`, then greedily 5 digits with a trailing word boundary,
backtracking to 4; the leading `\b` needs the previous character (if any) to
be a non-word character, `C` being a word character.  `matchAll` resumes
after the end of each match, so matches are non-overlapping, left to right. -/

/-- JS `\w`: `[A-Za-z0-9_]`. -/
def isWordChar (c : Char) : Bool := c.isAlphanum || c == '_'

/-- Does `\b` hold between the last matched character (a digit) and the rest? -/
def boundaryAfter : List Char → Bool
  | [] => true
  | c :: _ => !isWordChar c

/-- Are the first `k` characters present and all decimal digits? -/
def hasKDigits (rest : List Char) (k : Nat) : Bool :=
  decide ((rest.take k).length = k) && (rest.take k).all Char.isDigit

/-- One quantifier attempt of `\d{4,5}\b`: exactly `k` digits then a boundary. -/
def tryExact (rest : List Char) (k : Nat) : Bool :=
  hasKDigits rest k && boundaryAfter (rest.drop k)

/-- Attempt `\bC#\d{4,5}\b` at the head of `s`; `prevW` says whether the
character before `s` is a word character.  Returns the digit count matched:
the greedy quantifier first tries 5 digits, backtracking to 4 when the
trailing `\b` fails. -/
def regexMatchDigits (prevW : Bool) (s : List Char) : Option Nat :=
  match s with
  | c1 :: c2 :: rest =>
    if c1 = 'C' ∧ c2 = '#' then
      if prevW then none
      else if tryExact rest 5 then some 5
      else if tryExact rest 4 then some 4
      else none
    else none
  | _ => none

/-- The `matchAll` scan.  Fuel is the length of the text; every step consumes
at least one character and one unit of fuel.  After a match the scan resumes
after its last character, a digit, so `prevW` becomes `true`. -/
def scanFuel : Nat → Bool → List Char → List String
  | 0, _, _ => []
  | _, _, [] => []
  | fuel + 1, prevW, c :: rest =>
    match regexMatchDigits prevW (c :: rest) with
    | some d =>
      String.mk ((c :: rest).take (2 + d)) :: scanFuel fuel true ((c :: rest).drop (2 + d))
    | none => scanFuel fuel (isWordChar c) rest

/-- `[...event.text.matchAll(ORDER_REGEX)].map(m => m[0])` (source line 246). -/
def extractOrderIds (s : String) : List String :=
  scanFuel s.data.length false s.data

/-- Modelled from the spec: the claim's context-independent pattern — a
marker character, the fixed letter, and 4-5 digits, with no requirement on
the surrounding characters. -/
def specMatchDigits (s : List Char) : Option Nat :=
  match s with
  | c1 :: c2 :: rest =>
    if c1 = 'C' ∧ c2 = '#' then
      if hasKDigits rest 5 then some 5
      else if hasKDigits rest 4 then some 4
      else none
    else none
  | _ => none

/-- Modelled from the spec: context-independent scan, non-overlapping,
left to right. -/
def specScanFuel : Nat → List Char → List String
  | 0, _ => []
  | _, [] => []
  | fuel + 1, c :: rest =>
    match specMatchDigits (c :: rest) with
    | some d =>
      String.mk ((c :: rest).take (2 + d)) :: specScanFuel fuel ((c :: rest).drop (2 + d))
    | none => specScanFuel fuel rest

def specExtract (s : String) : List String :=
  specScanFuel s.data.length s.data

/-- The amended pattern: the token's digit run is maximal of length 4 or 5,
and the token is delimited by word boundaries on both sides. -/
def digitsPrefix : List Char → Nat
  | [] => 0
  | c :: cs => if c.isDigit then digitsPrefix cs + 1 else 0

def boundaryMatchDigits (prevW : Bool) (s : List Char) : Option Nat :=
  match s with
  | c1 :: c2 :: rest =>
    if c1 = 'C' ∧ c2 = '#' then
      let d := digitsPrefix rest
      if !prevW && (decide (d = 4) || decide (d = 5)) && boundaryAfter (rest.drop d) then some d
      else none
    else none
  | _ => none

def boundaryScanFuel : Nat → Bool → List Char → List String
  | 0, _, _ => []
  | _, _, [] => []
  | fuel + 1, prevW, c :: rest =>
    match boundaryMatchDigits prevW (c :: rest) with
    | some d =>
      String.mk ((c :: rest).take (2 + d)) :: boundaryScanFuel fuel true ((c :: rest).drop (2 + d))
    | none => boundaryScanFuel fuel (isWordChar c) rest

def boundaryExtract (s : String) : List String :=
  boundaryScanFuel s.data.length false s.data

/- ===== Event dispatcher (source lines 241-319) ===== -/

/-- The inbound Slack message fields the handler reads. -/
structure SlackEvent where
  subtype : Option String
  text : Option String
  botId : Option String
  channel : String
deriving DecidableEq, Repr

/-- JS truthiness of an optional string: present and non-empty. -/
def jsTruthyOpt (s : Option String) : Bool :=
  match s with
  | none => false
  | some v => v ≠ ""

/-- `LOCK_CHANNEL && event.channel !== LOCK_CHANNEL` (source line 244). -/
def lockBlocks (lock : Option String) (channel : String) : Bool :=
  match lock with
  | none => false
  | some l => if l = "" then false else channel != l

/-- The replies the handler posts (threaded messages). -/
inductive Reply where
  | notFound (name : String)
  | summary (r : AnalysisResult)
  | apology
deriving DecidableEq, Repr

/-- The per-identifier loop (source lines 249-308), with the fallible
fetch explicit.  Returns the replies posted before any exception, and the
exception if one was raised; posting stops at the first exception. -/
def processMatches (lookup : String → Except String (Option Order)) (now : ℤ) :
    List String → List Reply × Option String
  | [] => ([], none)
  | m :: ms =>
    match lookup m with
    | .error e => ([], some e)
    | .ok none =>
      let (rs, e) := processMatches lookup now ms
      (Reply.notFound m :: rs, e)
    | .ok (some o) =>
      let (rs, e) := processMatches lookup now ms
      (Reply.summary (analyzeOrder now o) :: rs, e)

/-- The whole `app.event('message')` handler (source lines 241-319): guards,
identifier extraction, the per-message loop, and the catch that posts one
apology for the whole loop. -/
def handleMessage (lookup : String → Except String (Option Order)) (now : ℤ)
    (lock : Option String) (ev : SlackEvent) : List Reply :=
  if jsTruthyOpt ev.subtype || !jsTruthyOpt ev.text || jsTruthyOpt ev.botId then []
  else if lockBlocks lock ev.channel then []
  else
    let found := extractOrderIds (ev.text.getD "")
    if found.isEmpty then []
    else
      let (rs, e) := processMatches lookup now found
      match e with
      | none => rs
      | some _ => rs ++ [Reply.apology]

/-- The reply one identifier produces when its fetch does not raise. -/
def replyFor (lookup : String → Except String (Option Order)) (now : ℤ) (m : String) : Reply :=
  match lookup m with
  | .ok none => Reply.notFound m
  | .ok (some o) => Reply.summary (analyzeOrder now o)
  | .error _ => Reply.apology

/- ===== Concrete inputs used by witnesses and counterexamples ===== -/

/-- An order with every nullable field absent. -/
def emptyOrder : Order :=
  { id := none, name := none, createdAt := none, displayFulfillmentStatus := none
    customerDisplayName := none, fulfillments := none
    weeksSinceOrder := none, arrangeStatus := none, arrangedWith := none
    incoming := none, reserveIncoming := none, readyToContact := none
    needsFollowUp := none, followUpNotes := none, owesReturn := none
    returnNotes := none, invoicedWith := none }

/-- Arranged with a supplier, reserved incoming inventory, not incoming. -/
def ordC9 : Order :=
  { emptyOrder with
    arrangeStatus := some ⟨some "Arranged"⟩
    arrangedWith := some ⟨some "Acme"⟩
    reserveIncoming := some ⟨some "Reserved Incoming Inventory"⟩ }

/-- Twenty-three identical detail entries. -/
def sampleDetails : List DetailEntry :=
  List.replicate 23 ⟨"k", "Label", "v"⟩

/-- A successful transport response with zero matching orders. -/
def respNoMatch : HttpResp :=
  { ok := true, status := 200, body := { errors := none, data := some { errors := none, orders := some { edges := [] } } } }

/-- A failed transport response. -/
def respHttpFail : HttpResp :=
  { ok := false, status := 500, body := { errors := none, data := none } }

/-- A lookup that finds nothing for the first identifier and raises on any
other. -/
def lookupDemo : String → Except String (Option Order) :=
  fun m => if m = "C#1111" then Except.ok none else Except.error "boom"

/-- A plain user message naming three orders. -/
def eventDemo : SlackEvent :=
  { subtype := none, text := some "C#1111 C#2222 C#3333", botId := none, channel := "C01" }

/-- A fulfilled order whose only fulfillment is 14 days before time `tEval`. -/
def ordFulfilled14d (tEval : ℤ) : Order :=
  { emptyOrder with
    displayFulfillmentStatus := some "FULFILLED"
    fulfillments := some [⟨some (tEval - 1209600000), some "SUCCESS"⟩] }

/- =====================================================================
   Theorems
   ===================================================================== -/

theorem addDetail_blurb (s : AState) (k l v : String) :
    (addDetail s k l v).blurb = s.blurb := by
  unfold addDetail
  split_ifs <;> rfl

theorem addDetail_pushLines (s : AState) (ls : List BlurbLine) (k l v : String) :
    addDetail (pushLines s ls) k l v = pushLines (addDetail s k l v) ls := by
  simp only [addDetail, pushLines]
  split_ifs <;> rfl

theorem applyReqs_nil (s : AState) : applyReqs s [] = s := rfl

theorem applyReqs_cons (s : AState) (e : DetailEntry) (es : List DetailEntry) :
    applyReqs s (e :: es) = applyReqs (addDetail s e.key e.label e.value) es := rfl

theorem applyReqs_append (s : AState) (l1 l2 : List DetailEntry) :
    applyReqs s (l1 ++ l2) = applyReqs (applyReqs s l1) l2 := by
  simp [applyReqs, List.foldl_append]

theorem applyReqs_pushLines (s : AState) (ls : List BlurbLine) (reqs : List DetailEntry) :
    applyReqs (pushLines s ls) reqs = pushLines (applyReqs s reqs) ls := by
  induction reqs generalizing s with
  | nil => rfl
  | cons e es ih => rw [applyReqs_cons, applyReqs_cons, addDetail_pushLines, ih]

theorem pushLines_pushLines (s : AState) (a b : List BlurbLine) :
    pushLines (pushLines s a) b = pushLines s (a ++ b) := by
  simp [pushLines]

theorem rule1_eq (c : Ctx) (s : AState) :
    rule1 c s = applyReqs (pushLines s (ruleLines1 c)) (ruleReqs1 c) := by
  cases h : c.isFulfilled <;>
    simp [rule1, ruleLines1, ruleReqs1, applyReqs, pushLines, pushBlurb, h]

theorem rule2_eq (c : Ctx) (s : AState) :
    rule2 c s = applyReqs (pushLines s (ruleLines2 c)) (ruleReqs2 c) := by
  cases h : fires2 c <;> cases hf : c.isFulfilled <;>
    simp [rule2, ruleLines2, ruleReqs2, weeksReq, applyReqs, pushLines, pushBlurb, h, hf]

theorem rule3_eq (c : Ctx) (s : AState) :
    rule3 c s = applyReqs (pushLines s (ruleLines3 c)) (ruleReqs3 c) := by
  cases h : fires3 c <;> cases hf : c.isFulfilled <;>
    simp [rule3, ruleLines3, ruleReqs3, weeksReq, applyReqs, pushLines, pushBlurb, h, hf]

theorem rule4_eq (c : Ctx) (s : AState) :
    rule4 c s = applyReqs (pushLines s (ruleLines4 c)) (ruleReqs4 c) := by
  cases h : fires4 c <;> cases hf : c.isFulfilled <;>
    cases ha : isEq c.mf.arrangeStatus "ARRANGED" <;>
      simp [rule4, ruleLines4, ruleReqs4, weeksReq, applyReqs, pushLines, pushBlurb, h, hf, ha]

theorem rule5_eq (c : Ctx) (s : AState) :
    rule5 c s = applyReqs (pushLines s (ruleLines5 c)) (ruleReqs5 c) := by
  cases h : fires5a c <;> cases h2 : fires5b c <;>
    simp [rule5, ruleLines5, ruleReqs5, applyReqs, pushLines, pushBlurb, h, h2]

theorem rule6_eq (c : Ctx) (s : AState) :
    rule6 c s = applyReqs (pushLines s (ruleLines6 c)) (ruleReqs6 c) := by
  cases h : fires6 c <;>
    simp [rule6, ruleLines6, ruleReqs6, applyReqs, pushLines, pushBlurb, h]

theorem rule7_eq (c : Ctx) (s : AState) :
    rule7 c s = applyReqs (pushLines s (ruleLines7 c)) (ruleReqs7 c) := by
  cases h : fires7 c <;>
    simp [rule7, ruleLines7, ruleReqs7, applyReqs, pushLines, pushBlurb, h]

theorem rule8_eq (c : Ctx) (s : AState) :
    rule8 c s = applyReqs (pushLines s (ruleLines8 c)) (ruleReqs8 c) := by
  cases h : fires8 c <;>
    simp [rule8, ruleLines8, ruleReqs8, applyReqs, pushLines, pushBlurb, h]

theorem pipeline_eq (c : Ctx) (s : AState) :
    rule8 c (rule7 c (rule6 c (rule5 c (rule4 c (rule3 c (rule2 c (rule1 c s))))))) =
      applyReqs (pushLines s (allLines c)) (detailRequests c) := by
  rw [rule1_eq, rule2_eq, rule3_eq, rule4_eq, rule5_eq, rule6_eq, rule7_eq, rule8_eq,
    allLines, detailRequests]
  simp only [applyReqs_pushLines, pushLines_pushLines, applyReqs_append, List.append_assoc]

theorem applyReqs_spec (reqs : List DetailEntry) (s : AState) :
    applyReqs s reqs =
      ⟨s.blurb, s.details ++ dedupFirst reqs s.added,
       s.added ++ (dedupFirst reqs s.added).map DetailEntry.key⟩ := by
  induction reqs generalizing s with
  | nil => simp [applyReqs, dedupFirst]
  | cons e es ih =>
    rw [applyReqs_cons]
    by_cases h1 : e.value = ""
    · rw [show addDetail s e.key e.label e.value = s by simp [addDetail, h1]]
      rw [ih]; simp [dedupFirst, h1]
    · by_cases h2 : e.key ∈ s.added
      · rw [show addDetail s e.key e.label e.value = s by simp [addDetail, h1, h2]]
        rw [ih]; simp [dedupFirst, h1, h2]
      · rw [show addDetail s e.key e.label e.value =
            ⟨s.blurb, s.details ++ [e], s.added ++ [e.key]⟩ by simp [addDetail, h1, h2]]
        rw [ih]; simp [dedupFirst, h1, h2]

theorem ruleLines1_length (c : Ctx) : (ruleLines1 c).length = 1 := by
  unfold ruleLines1; split <;> rfl

theorem allLines_ne_nil (c : Ctx) : allLines c ≠ [] := by
  intro h
  have := congrArg List.length h
  simp [allLines, ruleLines1_length] at this

theorem analyzeOrder_blurb (now : ℤ) (o : Order) :
    (analyzeOrder now o).blurbLines = allLines (mkCtx now o) := by
  simp only [analyzeOrder, pipeline_eq, applyReqs_spec]
  unfold noExceptionsStep
  split
  · next h =>
    exfalso
    simp only [pushLines, List.nil_append, List.length_eq_zero] at h
    exact allLines_ne_nil _ h
  · simp [pushLines]

theorem analyzeOrder_details (now : ℤ) (o : Order) :
    (analyzeOrder now o).details = dedupFirst (detailRequests (mkCtx now o)) [] := by
  simp only [analyzeOrder, pipeline_eq, applyReqs_spec]
  unfold noExceptionsStep
  split <;> simp [pushBlurb, pushLines]

theorem dedupFirst_mem {reqs : List DetailEntry} {seen : List String} {e : DetailEntry}
    (he : e ∈ dedupFirst reqs seen) : e ∈ reqs ∧ e.value ≠ "" ∧ e.key ∉ seen := by
  induction reqs generalizing seen with
  | nil => simp [dedupFirst] at he
  | cons a as ih =>
    unfold dedupFirst at he
    split_ifs at he with h1 h2
    · rcases ih he with ⟨hm, hv, hk⟩
      exact ⟨List.mem_cons_of_mem _ hm, hv, hk⟩
    · rcases ih he with ⟨hm, hv, hk⟩
      exact ⟨List.mem_cons_of_mem _ hm, hv, hk⟩
    · rcases List.mem_cons.mp he with rfl | hm
      · exact ⟨List.mem_cons_self _ _, h1, h2⟩
      · rcases ih hm with ⟨hm', hv, hk⟩
        exact ⟨List.mem_cons_of_mem _ hm', hv, fun hcon => hk (List.mem_append_left _ hcon)⟩

theorem dedupFirst_keys_nodup (reqs : List DetailEntry) (seen : List String) :
    ((dedupFirst reqs seen).map DetailEntry.key).Nodup := by
  induction reqs generalizing seen with
  | nil => simp [dedupFirst]
  | cons a as ih =>
    unfold dedupFirst
    split_ifs with h1 h2
    · exact ih seen
    · exact ih seen
    · simp only [List.map_cons, List.nodup_cons]
      refine ⟨fun hmem => ?_, ih _⟩
      rcases List.mem_map.mp hmem with ⟨e, he, hek⟩
      rcases dedupFirst_mem he with ⟨_, _, hk⟩
      exact hk (by rw [hek]; exact List.mem_append_right _ (List.mem_singleton.mpr rfl))

theorem dedupFirst_filter_of_mem_seen {reqs : List DetailEntry} {seen : List String}
    {k : String} (hk : k ∈ seen) :
    (dedupFirst reqs seen).filter (fun e => e.key == k) = [] := by
  rw [List.filter_eq_nil_iff]
  intro e he
  rcases dedupFirst_mem he with ⟨_, _, hkey⟩
  simp only [beq_iff_eq]
  intro hcon
  exact hkey (hcon ▸ hk)

theorem dedupFirst_filter (k : String) (reqs : List DetailEntry) :
    ∀ seen, k ∉ seen →
      (dedupFirst reqs seen).filter (fun e => e.key == k) =
        (reqs.find? (fun e => !(e.value == "") && e.key == k)).toList := by
  induction reqs with
  | nil => intro seen _; simp [dedupFirst]
  | cons a as ih =>
    intro seen hk
    unfold dedupFirst
    by_cases h1 : a.value = ""
    · rw [if_pos h1, ih seen hk]
      simp [List.find?, h1]
    · by_cases h2 : a.key ∈ seen
      · rw [if_neg h1, if_pos h2, ih seen hk]
        have hak : (a.key == k) = false := by
          simp only [beq_eq_false_iff_ne]
          intro hcon; exact hk (hcon ▸ h2)
        simp [List.find?, hak, h1]
      · rw [if_neg h1, if_neg h2]
        by_cases h3 : a.key = k
        · subst h3
          rw [List.filter_cons_of_pos (by simp)]
          rw [dedupFirst_filter_of_mem_seen (List.mem_append_right _ (List.mem_singleton.mpr rfl))]
          have hv : (a.value == "") = false := by simp [h1]
          simp [List.find?, hv]
        · rw [List.filter_cons_of_neg (by simp [h3])]
          have hk2 : k ∉ seen ++ [a.key] := by
            simp only [List.mem_append, List.mem_singleton]
            rintro (h | h)
            · exact hk h
            · exact h3 h.symm
          rw [ih (seen ++ [a.key]) hk2]
          have hak : (a.key == k) = false := by simp [h3]
          simp [List.find?, hak, h1]

theorem ruleReqs1_subset (c : Ctx) {e : DetailEntry} (he : e ∈ ruleReqs1 c) :
    e ∈ masterRequests c := by
  unfold ruleReqs1 at he
  split at he
  · obtain rfl := List.mem_singleton.mp he
    simp [masterRequests]
  · simp at he

theorem weeksReq_subset (c : Ctx) {e : DetailEntry} (he : e ∈ weeksReq c) :
    e ∈ masterRequests c := by
  unfold weeksReq at he
  split at he
  · obtain rfl := List.mem_singleton.mp he
    simp [masterRequests]
  · simp at he

theorem ruleReqs2_subset (c : Ctx) {e : DetailEntry} (he : e ∈ ruleReqs2 c) :
    e ∈ masterRequests c := by
  unfold ruleReqs2 at he
  split at he
  · rcases List.mem_cons.mp he with rfl | he2
    · simp [masterRequests]
    · exact weeksReq_subset c he2
  · simp at he

theorem ruleReqs3_subset (c : Ctx) {e : DetailEntry} (he : e ∈ ruleReqs3 c) :
    e ∈ masterRequests c := by
  unfold ruleReqs3 at he
  split at he
  · rcases List.mem_cons.mp he with rfl | he2
    · simp [masterRequests]
    · exact weeksReq_subset c he2
  · simp at he

theorem ruleReqs4_subset (c : Ctx) {e : DetailEntry} (he : e ∈ ruleReqs4 c) :
    e ∈ masterRequests c := by
  unfold ruleReqs4 at he
  split at he
  · rcases List.mem_append.mp he with h | h
    · split at h
      · obtain rfl := List.mem_singleton.mp h
        simp [masterRequests]
      · simp at h
    · rcases List.mem_cons.mp h with rfl | he2
      · simp [masterRequests]
      · exact weeksReq_subset c he2
  · simp at he

theorem ruleReqs5_subset (c : Ctx) {e : DetailEntry} (he : e ∈ ruleReqs5 c) :
    e ∈ masterRequests c := by
  unfold ruleReqs5 at he
  split at he
  · obtain rfl := List.mem_singleton.mp he
    simp [masterRequests]
  · split at he
    · rcases List.mem_cons.mp he with rfl | he2
      · simp [masterRequests]
      · obtain rfl := List.mem_singleton.mp he2
        simp [masterRequests]
    · simp at he

theorem ruleReqs6_subset (c : Ctx) {e : DetailEntry} (he : e ∈ ruleReqs6 c) :
    e ∈ masterRequests c := by
  unfold ruleReqs6 at he
  split at he
  · obtain rfl := List.mem_singleton.mp he
    simp [masterRequests]
  · simp at he

theorem ruleReqs7_subset (c : Ctx) {e : DetailEntry} (he : e ∈ ruleReqs7 c) :
    e ∈ masterRequests c := by
  unfold ruleReqs7 at he
  split at he
  · obtain rfl := List.mem_singleton.mp he
    simp [masterRequests]
  · simp at he

theorem ruleReqs8_subset (c : Ctx) {e : DetailEntry} (he : e ∈ ruleReqs8 c) :
    e ∈ masterRequests c := by
  unfold ruleReqs8 at he
  split at he
  · obtain rfl := List.mem_singleton.mp he
    simp [masterRequests]
  · simp at he

theorem detailRequests_subset (c : Ctx) {e : DetailEntry} (he : e ∈ detailRequests c) :
    e ∈ masterRequests c := by
  simp only [detailRequests, List.append_assoc, List.mem_append] at he
  rcases he with h|h|h|h|h|h|h|h
  · exact ruleReqs1_subset c h
  · exact ruleReqs2_subset c h
  · exact ruleReqs3_subset c h
  · exact ruleReqs4_subset c h
  · exact ruleReqs5_subset c h
  · exact ruleReqs6_subset c h
  · exact ruleReqs7_subset c h
  · exact ruleReqs8_subset c h

/-- Every detail entry in an analysis result comes from the bounded request
table and has a non-blank value. -/
theorem analyzeOrder_detail_shape (now : ℤ) (o : Order) {e : DetailEntry}
    (he : e ∈ (analyzeOrder now o).details) :
    e ∈ masterRequests (mkCtx now o) ∧ e.value ≠ "" := by
  rw [analyzeOrder_details] at he
  rcases dedupFirst_mem he with ⟨hreq, hval, -⟩
  exact ⟨detailRequests_subset _ hreq, hval⟩

theorem noExceptions_not_mem_allLines (c : Ctx) : BlurbLine.noExceptions ∉ allLines c := by
  intro h
  simp only [allLines, ruleLines1, ruleLines2, ruleLines3, ruleLines4, ruleLines5,
    ruleLines6, ruleLines7, ruleLines8, List.append_assoc, List.mem_append] at h
  rcases h with h|h|h|h|h|h|h|h <;> (repeat' split at h) <;> simp at h

/- ===== Claim C1 ===== -/

/-- C1 counterexample: on an order with no custom fields and not fulfilled,
only the fulfillment rule fires, the narrative is exactly the single
"not yet fulfilled, age unknown" line, and no "no exceptions detected"
sentinel is appended — refuting the claim that the sentinel is appended
whenever the narrative would otherwise be exactly the fulfillment line. -/
theorem claim_C1_counterexample :
    (analyzeOrder 0 emptyOrder).blurbLines = [BlurbLine.notFulfilled ""] ∧
      BlurbLine.noExceptions ∉ (analyzeOrder 0 emptyOrder).blurbLines := by
  constructor
  · decide
  · decide

/-- C1 (amended): the sentinel "no exceptions detected" line is appended only
when the narrative is empty after all rules, which never happens because
rule 1 always contributes a line; hence the sentinel never appears, and when
no rule besides rule 1 fires the narrative is exactly rule 1's fulfillment
line with no sentinel. -/
theorem claim_C1 (now : ℤ) (o : Order) :
    BlurbLine.noExceptions ∉ (analyzeOrder now o).blurbLines ∧
      (fires2 (mkCtx now o) = false → fires3 (mkCtx now o) = false →
       fires4 (mkCtx now o) = false → fires5a (mkCtx now o) = false →
       fires5b (mkCtx now o) = false → fires6 (mkCtx now o) = false →
       fires7 (mkCtx now o) = false → fires8 (mkCtx now o) = false →
       (analyzeOrder now o).blurbLines = ruleLines1 (mkCtx now o)) := by
  constructor
  · rw [analyzeOrder_blurb]
    exact noExceptions_not_mem_allLines _
  · intro h2 h3 h4 h5a h5b h6 h7 h8
    rw [analyzeOrder_blurb]
    simp [allLines, ruleLines2, ruleLines3, ruleLines4, ruleLines5, ruleLines6,
      ruleLines7, ruleLines8, h2, h3, h4, h5a, h5b, h6, h7, h8]

/-- Witness for C1 at a concrete order on which only rule 1 fires. -/
theorem claim_C1_witness :
    BlurbLine.noExceptions ∉ (analyzeOrder 0 emptyOrder).blurbLines ∧
      (analyzeOrder 0 emptyOrder).blurbLines = ruleLines1 (mkCtx 0 emptyOrder) :=
  ⟨(claim_C1 0 emptyOrder).1,
   (claim_C1 0 emptyOrder).2 (by decide) (by decide) (by decide) (by decide)
     (by decide) (by decide) (by decide) (by decide)⟩

/- ===== Claim C2 ===== -/

/-- C2: in every analysis result the detail-entry dedup keys are pairwise
distinct, and for every key the entries carrying it are exactly the first
rule-issued request for that key with a non-blank value (first writer wins;
later requests for the same key are ignored). -/
theorem claim_C2 (now : ℤ) (o : Order) :
    ((analyzeOrder now o).details.map DetailEntry.key).Nodup ∧
      ∀ k : String,
        (analyzeOrder now o).details.filter (fun e => e.key == k) =
          ((detailRequests (mkCtx now o)).find?
            (fun e => !(e.value == "") && e.key == k)).toList := by
  constructor
  · rw [analyzeOrder_details]
    exact dedupFirst_keys_nodup _ _
  · intro k
    rw [analyzeOrder_details]
    exact dedupFirst_filter k _ [] (by simp)

/- ===== Claim C3 ===== -/

/-- C3: the narrative line list of every analysis result is non-empty; rule 1
contributes either a fulfilled line or a not-yet-fulfilled line for every
input. -/
theorem claim_C3 (now : ℤ) (o : Order) :
    1 ≤ (analyzeOrder now o).blurbLines.length := by
  rw [analyzeOrder_blurb]
  have h := allLines_ne_nil (mkCtx now o)
  cases hL : allLines (mkCtx now o) with
  | nil => exact absurd hL h
  | cons a l => simp

/- ===== Claim C5 ===== -/

/-- If every request for key `k` carries a blank value, no detail keyed `k`
appears in the output. -/
theorem key_not_mem_of_blank (now : ℤ) (o : Order) (k : String)
    (hval : ∀ e ∈ masterRequests (mkCtx now o), e.key = k → e.value = "") :
    k ∉ (analyzeOrder now o).details.map DetailEntry.key := by
  intro hmem
  rcases List.mem_map.mp hmem with ⟨e, he, hkey⟩
  rcases analyzeOrder_detail_shape now o he with ⟨hm, hv⟩
  exact hv (hval e hm hkey)

/-- C5: a blank normalized attribute suppresses its detail entry, and no rule
whose positive case tests that attribute's enum value fires. -/
theorem claim_C5 (now : ℤ) (o : Order) :
    ((normalizeMf o).invoice = "" →
      "invoice" ∉ (analyzeOrder now o).details.map DetailEntry.key) ∧
    ((normalizeMf o).weeks = "" →
      "weeks" ∉ (analyzeOrder now o).details.map DetailEntry.key) ∧
    ((normalizeMf o).followUpNotes = "" →
      "followUpNotes" ∉ (analyzeOrder now o).details.map DetailEntry.key) ∧
    ((normalizeMf o).arrangedWith = "" →
      "arrangedWith" ∉ (analyzeOrder now o).details.map DetailEntry.key) ∧
    ((normalizeMf o).returnNotes = "" →
      "returnNotes" ∉ (analyzeOrder now o).details.map DetailEntry.key) ∧
    ((normalizeMf o).arrangeStatus = "" →
      fires2 (mkCtx now o) = false ∧ fires3 (mkCtx now o) = false) ∧
    ((normalizeMf o).incoming = "" → fires4 (mkCtx now o) = false) ∧
    ((normalizeMf o).readyToContact = "" →
      fires5a (mkCtx now o) = false ∧ fires5b (mkCtx now o) = false) ∧
    ((normalizeMf o).needsFollowUp = "" → fires6 (mkCtx now o) = false) ∧
    ((normalizeMf o).reserveIncoming = "" → fires7 (mkCtx now o) = false) ∧
    ((normalizeMf o).owesReturn = "" → fires8 (mkCtx now o) = false) := by
  refine ⟨?_, ?_, ?_, ?_, ?_, ?_, ?_, ?_, ?_, ?_, ?_⟩
  · intro h
    refine key_not_mem_of_blank now o _ fun e he hk => ?_
    simp only [masterRequests, mkCtx, List.mem_cons, List.not_mem_nil, or_false] at he
    rcases he with rfl|rfl|rfl|rfl|rfl|rfl <;> simp_all
  · intro h
    refine key_not_mem_of_blank now o _ fun e he hk => ?_
    simp only [masterRequests, mkCtx, List.mem_cons, List.not_mem_nil, or_false] at he
    rcases he with rfl|rfl|rfl|rfl|rfl|rfl <;> simp_all
  · intro h
    refine key_not_mem_of_blank now o _ fun e he hk => ?_
    simp only [masterRequests, mkCtx, List.mem_cons, List.not_mem_nil, or_false] at he
    rcases he with rfl|rfl|rfl|rfl|rfl|rfl <;> simp_all
  · intro h
    refine key_not_mem_of_blank now o _ fun e he hk => ?_
    simp only [masterRequests, mkCtx, List.mem_cons, List.not_mem_nil, or_false] at he
    rcases he with rfl|rfl|rfl|rfl|rfl|rfl <;> simp_all
  · intro h
    refine key_not_mem_of_blank now o _ fun e he hk => ?_
    simp only [masterRequests, mkCtx, List.mem_cons, List.not_mem_nil, or_false] at he
    rcases he with rfl|rfl|rfl|rfl|rfl|rfl <;> simp_all
  · intro h
    constructor
    · simp only [fires2, mkCtx, h]
      decide
    · simp only [fires3, mkCtx, h]
      rw [show isEq "" "ARRANGED" = false by decide]
      simp
  · intro h
    simp only [fires4, mkCtx, h]
    decide
  · intro h
    constructor
    · simp only [fires5a, mkCtx, h]
      decide
    · simp only [fires5b, mkCtx, h]
      decide
  · intro h
    simp only [fires6, mkCtx, h]
    decide
  · intro h
    simp only [fires7, mkCtx, h]
    decide
  · intro h
    simp only [fires8, mkCtx, h]
    decide

/-- Witness for C5 at the all-blank order. -/
theorem claim_C5_witness :
    "invoice" ∉ (analyzeOrder 0 emptyOrder).details.map DetailEntry.key ∧
      fires4 (mkCtx 0 emptyOrder) = false :=
  ⟨(claim_C5 0 emptyOrder).1 (by decide),
   (claim_C5 0 emptyOrder).2.2.2.2.2.2.1 (by decide)⟩

/- ===== Claim C9 ===== -/

theorem find?_none_of_keys (k : String) (l : List DetailEntry)
    (h : ∀ e ∈ l, e.key ≠ k) :
    l.find? (fun e => !(e.value == "") && e.key == k) = none := by
  induction l with
  | nil => rfl
  | cons a as ih =>
    have hk : (a.key == k) = false := by
      simp only [beq_eq_false_iff_ne]
      exact h a (List.mem_cons_self a as)
    have htail := ih fun e he => h e (List.mem_cons_of_mem _ he)
    simp [List.find?, hk, htail]

theorem ruleReqs1_keys (c : Ctx) : ∀ e ∈ ruleReqs1 c, e.key = "invoice" := by
  intro e he
  unfold ruleReqs1 at he
  split at he
  · obtain rfl := List.mem_singleton.mp he; rfl
  · simp at he

theorem weeksReq_keys (c : Ctx) : ∀ e ∈ weeksReq c, e.key = "weeks" := by
  intro e he
  unfold weeksReq at he
  split at he
  · obtain rfl := List.mem_singleton.mp he; rfl
  · simp at he

theorem ruleReqs2_keys (c : Ctx) :
    ∀ e ∈ ruleReqs2 c, e.key = "followUpNotes" ∨ e.key = "weeks" := by
  intro e he
  unfold ruleReqs2 at he
  split at he
  · rcases List.mem_cons.mp he with rfl | he2
    · exact Or.inl rfl
    · exact Or.inr (weeksReq_keys c e he2)
  · simp at he

theorem find?_append_none {α} (p : α → Bool) {l1 : List α}
    (h : l1.find? p = none) (l2 : List α) :
    (l1 ++ l2).find? p = l2.find? p := by
  induction l1 with
  | nil => rfl
  | cons b bs ih =>
    cases hp : p b with
    | true => simp [List.find?, hp] at h
    | false =>
      simp only [List.find?, hp] at h
      simpa [List.find?, hp] using ih h

theorem find?_append_some {α} (p : α → Bool) {l1 : List α} {a : α}
    (h : l1.find? p = some a) (l2 : List α) :
    (l1 ++ l2).find? p = some a := by
  induction l1 with
  | nil => simp [List.find?] at h
  | cons b bs ih =>
    cases hp : p b with
    | true =>
      simp only [List.find?, hp] at h
      simpa [List.find?, hp] using h
    | false =>
      simp only [List.find?, hp] at h
      simpa [List.find?, hp] using ih h

/-- C9: when both rule 3 (arranged, not incoming) and rule 7 (reserved
incoming inventory) fire with a non-blank arranged-with value, exactly one
`arrangedWith`-keyed detail appears, labeled `Arranged With` (rule 3, the
first writer); the reservation label `Arranged/Reserved With` is suppressed
everywhere. -/
theorem claim_C9 (now : ℤ) (o : Order)
    (h1 : isEq (normalizeMf o).arrangeStatus "ARRANGED" = true)
    (h2 : isYes (normalizeMf o).incoming "INCOMING" = false)
    (_h3 : isEq (normalizeMf o).reserveIncoming "RESERVED INCOMING INVENTORY" = true)
    (h4 : (normalizeMf o).arrangedWith ≠ "") :
    (analyzeOrder now o).details.filter (fun e => e.key == "arrangedWith") =
        [⟨"arrangedWith", "Arranged With", (normalizeMf o).arrangedWith⟩] ∧
      ∀ e ∈ (analyzeOrder now o).details, e.label ≠ "Arranged/Reserved With" := by
  have hf3 : fires3 (mkCtx now o) = true := by
    simp only [fires3, mkCtx]
    rw [h1, h2]
    rfl
  have hr1 : (ruleReqs1 (mkCtx now o)).find?
      (fun e => !(e.value == "") && e.key == "arrangedWith") = none :=
    find?_none_of_keys _ _ fun e he => by rw [ruleReqs1_keys _ e he]; decide
  have hr2 : (ruleReqs2 (mkCtx now o)).find?
      (fun e => !(e.value == "") && e.key == "arrangedWith") = none :=
    find?_none_of_keys _ _ fun e he => by
      rcases ruleReqs2_keys _ e he with h | h <;> rw [h] <;> decide
  have hr3 : (ruleReqs3 (mkCtx now o)).find?
      (fun e => !(e.value == "") && e.key == "arrangedWith") =
        some ⟨"arrangedWith", "Arranged With", (normalizeMf o).arrangedWith⟩ := by
    unfold ruleReqs3
    rw [hf3]
    have hv : ((normalizeMf o).arrangedWith == "") = false := by
      simp only [beq_eq_false_iff_ne]
      exact h4
    simp [List.find?, mkCtx, hv]
  have hfilter : (analyzeOrder now o).details.filter (fun e => e.key == "arrangedWith") =
      [⟨"arrangedWith", "Arranged With", (normalizeMf o).arrangedWith⟩] := by
    rw [analyzeOrder_details, dedupFirst_filter _ _ [] (by simp), detailRequests]
    simp only [List.append_assoc]
    rw [find?_append_none _ hr1, find?_append_none _ hr2, find?_append_some _ hr3]
    rfl
  refine ⟨hfilter, ?_⟩
  intro e he hlabel
  rcases analyzeOrder_detail_shape now o he with ⟨hm, hv⟩
  simp only [masterRequests, mkCtx, List.mem_cons, List.not_mem_nil, or_false] at hm
  rcases hm with rfl|rfl|rfl|rfl|rfl|rfl
  · simp at hlabel
  · simp at hlabel
  · simp at hlabel
  · simp at hlabel
  · have hmem : (⟨"arrangedWith", "Arranged/Reserved With", (normalizeMf o).arrangedWith⟩ :
        DetailEntry) ∈
          (analyzeOrder now o).details.filter (fun e => e.key == "arrangedWith") :=
      List.mem_filter.mpr (And.intro he (by rfl))
    rw [hfilter] at hmem
    simp at hmem
  · simp at hlabel

/-- Witness for C9 at a concrete arranged + reserved order. -/
theorem claim_C9_witness :
    (analyzeOrder 0 ordC9).details.filter (fun e => e.key == "arrangedWith") =
        [⟨"arrangedWith", "Arranged With", (normalizeMf ordC9).arrangedWith⟩] ∧
      ∀ e ∈ (analyzeOrder 0 ordC9).details, e.label ≠ "Arranged/Reserved With" :=
  claim_C9 0 ordC9 (by decide) (by decide) (by decide) (by decide)

/- ===== Claim C4 ===== -/

/-- C4 counterexample: for an event stamp 30240000 ms after the evaluation
instant (elapsed weeks -0.05), `Math.round` (half toward +∞) yields 0 while
round-half-away-from-zero yields -0.1, so the code's reported value differs
from the claimed rounding. -/
theorem claim_C4_counterexample :
    weeksSince 0 (some 30240000) = some 0 ∧
      roundHalfAwayWeeks 0 30240000 = -1/10 ∧
      weeksSince 0 (some 30240000) ≠ some (roundHalfAwayWeeks 0 30240000) := by
  refine ⟨?_, ?_, ?_⟩
  · norm_num [weeksSince, jsRound, msPerWeek]
  · norm_num [roundHalfAwayWeeks, roundHalfAwayFromZero, msPerWeek]
  · norm_num [weeksSince, jsRound, roundHalfAwayWeeks, roundHalfAwayFromZero, msPerWeek]

/-- C4 (amended): the reported elapsed weeks equal the elapsed milliseconds
divided by 7·24·3600·1000, rounded to one decimal half toward positive
infinity (`Math.round`), which coincides with round-half-away-from-zero
whenever the event is not after the evaluation instant; an event exactly 14
days before evaluation yields 2.0. -/
theorem claim_C4 (now d : ℤ) (h : d ≤ now) :
    weeksSince now (some d) = some (roundHalfAwayWeeks now d) ∧
      weeksSince now (some (now - 1209600000)) = some 2 := by
  constructor
  · have hq : (0 : ℚ) ≤ ((now - d : ℤ) : ℚ) / msPerWeek * 10 := by
      apply mul_nonneg
      · apply div_nonneg
        · exact_mod_cast sub_nonneg.mpr h
        · norm_num [msPerWeek]
      · norm_num
    simp only [weeksSince, roundHalfAwayWeeks, roundHalfAwayFromZero, jsRound, if_pos hq]
  · have h1 : ((now - (now - 1209600000) : ℤ) : ℚ) / msPerWeek * 10 = 20 := by
      push_cast
      norm_num [msPerWeek]
    simp only [weeksSince, jsRound, h1]
    norm_num

/-- Witness for C4 at 14 days of elapsed time. -/
theorem claim_C4_witness :
    weeksSince 1209600000 (some 0) = some (roundHalfAwayWeeks 1209600000 0) ∧
      weeksSince 1209600000 (some (1209600000 - 1209600000)) = some 2 :=
  claim_C4 1209600000 0 (by norm_num)

/- ===== Claim C6 ===== -/

/-- C6: the fetch raises exactly when the transport flag is not ok or the
body carries top-level or nested error entries; with no error it returns
`none` exactly when no first order node exists (zero matches), and otherwise
the first matching order record. -/
theorem claim_C6 (resp : HttpResp) :
    ((∃ e, getOrderByName resp = Except.error e) ↔
      (resp.ok = false ∨ resp.body.errors.getD [] ≠ [] ∨
        (resp.body.data.bind GqlData.errors).getD [] ≠ [])) ∧
    (getOrderByName resp = Except.ok none ↔
      (resp.ok = true ∧ resp.body.errors.getD [] = [] ∧
        (resp.body.data.bind GqlData.errors).getD [] = [] ∧ firstNode resp.body = none)) ∧
    (∀ n : Order, getOrderByName resp = Except.ok (some n) ↔
      (resp.ok = true ∧ resp.body.errors.getD [] = [] ∧
        (resp.body.data.bind GqlData.errors).getD [] = [] ∧
          firstNode resp.body = some n)) := by
  cases hok : resp.ok with
  | false => simp [getOrderByName, hok]
  | true =>
    cases h2 : resp.body.errors.getD [] with
    | cons a as => simp [getOrderByName, hok, h2]
    | nil =>
      cases h3 : (resp.body.data.bind GqlData.errors).getD [] with
      | cons a as => simp [getOrderByName, hok, h2, h3]
      | nil => simp [getOrderByName, hok, h2, h3]

/-- Witness for C6: a clean zero-match response returns absent, not an
error; a failed transport raises. -/
theorem claim_C6_witness :
    getOrderByName respNoMatch = Except.ok none ∧
      ∃ e, getOrderByName respHttpFail = Except.error e :=
  ⟨(claim_C6 respNoMatch).2.1.mpr ⟨rfl, rfl, rfl, rfl⟩,
   (claim_C6 respHttpFail).1.mpr (Or.inl rfl)⟩

/- ===== Claim C7 ===== -/

theorem fieldChunksAux_length (ds : List DetailEntry) :
    ∀ (chunks : List (List String)) (current : List String), current.length < 10 →
      (fieldChunksAux ds chunks current).length =
        chunks.length + (ds.length + current.length + 9) / 10 := by
  induction ds with
  | nil =>
    intro chunks current h
    unfold fieldChunksAux
    by_cases h0 : current.length = 0
    · rw [if_pos h0]
      simp only [List.length_nil]
      omega
    · rw [if_neg h0]
      simp only [List.length_append, List.length_cons, List.length_nil]
      omega
  | cons d ds ih =>
    intro chunks current h
    unfold fieldChunksAux
    by_cases h10 : (current ++ [mkField d]).length = 10
    · rw [if_pos h10, ih _ [] (by norm_num)]
      simp only [List.length_append, List.length_cons, List.length_nil] at h10 ⊢
      omega
    · have hlt : (current ++ [mkField d]).length < 10 := by
        simp only [List.length_append, List.length_cons, List.length_nil] at h10 ⊢
        omega
      rw [if_neg h10, ih _ _ hlt]
      simp only [List.length_append, List.length_cons, List.length_nil]
      omega

theorem fieldChunksAux_sizes (ds : List DetailEntry) :
    ∀ (chunks : List (List String)) (current : List String),
      (∀ c ∈ chunks, c.length = 10) → current.length < 10 →
      (∀ c ∈ fieldChunksAux ds chunks current, c.length ≤ 10) ∧
        (∀ c ∈ (fieldChunksAux ds chunks current).dropLast, c.length = 10) := by
  induction ds with
  | nil =>
    intro chunks current hch h
    unfold fieldChunksAux
    by_cases h0 : current.length = 0
    · rw [if_pos h0]
      refine ⟨fun c hc => (hch c hc).le, fun c hc => hch c ((List.dropLast_sublist _).subset hc)⟩
    · rw [if_neg h0]
      constructor
      · intro c hc
        rcases List.mem_append.mp hc with hc | hc
        · exact (hch c hc).le
        · obtain rfl := List.mem_singleton.mp hc
          exact h.le
      · intro c hc
        rw [List.dropLast_concat] at hc
        exact hch c hc
  | cons d ds ih =>
    intro chunks current hch h
    unfold fieldChunksAux
    by_cases h10 : (current ++ [mkField d]).length = 10
    · rw [if_pos h10]
      refine ih _ [] (fun c hc => ?_) (by norm_num)
      rcases List.mem_append.mp hc with hc | hc
      · exact hch c hc
      · obtain rfl := List.mem_singleton.mp hc
        exact h10
    · have hlt : (current ++ [mkField d]).length < 10 := by
        simp only [List.length_append, List.length_cons, List.length_nil] at h10 ⊢
        omega
      rw [if_neg h10]
      exact ih _ _ hch hlt

/-- C7: the formatter chunks the detail list in order into ceil(n/10) blocks
of at most 10 fields, every block but possibly the last holding exactly 10;
23 entries give blocks of sizes 10, 10, 3. -/
theorem claim_C7 :
    (∀ l : List DetailEntry,
      (fieldChunks l).length = (l.length + 9) / 10 ∧
        (∀ c ∈ fieldChunks l, c.length ≤ 10) ∧
        (∀ c ∈ (fieldChunks l).dropLast, c.length = 10)) ∧
      (fieldChunks sampleDetails).map List.length = [10, 10, 3] := by
  constructor
  · intro l
    refine ⟨?_, ?_, ?_⟩
    · rw [fieldChunks, fieldChunksAux_length l [] [] (by norm_num)]
      simp
    · exact (fieldChunksAux_sizes l [] [] (by simp) (by norm_num)).1
    · exact (fieldChunksAux_sizes l [] [] (by simp) (by norm_num)).2
  · decide

/-- Witness for C7 at the 23-entry list: 3 blocks, and the first (non-last)
block holds exactly 10 fields. -/
theorem claim_C7_witness :
    (fieldChunks sampleDetails).length = (sampleDetails.length + 9) / 10 ∧
      (List.replicate 10 (mkField ⟨"k", "Label", "v"⟩)).length = 10 :=
  ⟨(claim_C7.1 sampleDetails).1,
   (claim_C7.1 sampleDetails).2.2 (List.replicate 10 (mkField ⟨"k", "Label", "v"⟩)) (by decide)⟩

/- ===== Claim C8 ===== -/

theorem hasKDigits_iff (rest : List Char) :
    ∀ k, hasKDigits rest k = true ↔ k ≤ digitsPrefix rest := by
  induction rest with
  | nil =>
    intro k
    cases k <;> simp [hasKDigits, digitsPrefix]
  | cons c cs ih =>
    intro k
    cases k with
    | zero => simp [hasKDigits, digitsPrefix]
    | succ k =>
      cases hd : c.isDigit with
      | false => simp [hasKDigits, digitsPrefix, hd, List.take_succ_cons]
      | true =>
        have step : hasKDigits (c :: cs) (k + 1) = hasKDigits cs k := by
          simp [hasKDigits, List.take_succ_cons, hd]
        rw [step, ih k]
        simp [digitsPrefix, hd]

theorem boundaryAfter_of_lt (rest : List Char) :
    ∀ k, k < digitsPrefix rest → boundaryAfter (rest.drop k) = false := by
  induction rest with
  | nil => intro k h; simp [digitsPrefix] at h
  | cons c cs ih =>
    intro k h
    have hd : c.isDigit = true := by
      by_contra hcon
      rw [Bool.not_eq_true] at hcon
      simp [digitsPrefix, hcon] at h
    cases k with
    | zero =>
      simp [boundaryAfter, isWordChar, Char.isAlphanum, hd]
    | succ k =>
      rw [List.drop_succ_cons]
      apply ih
      simp only [digitsPrefix, hd, if_true] at h
      omega

theorem tryExact_false_of_gt (rest : List Char) {k : Nat}
    (h : digitsPrefix rest < k) : tryExact rest k = false := by
  unfold tryExact
  have : hasKDigits rest k = false := by
    rw [← Bool.not_eq_true, hasKDigits_iff]
    omega
  simp [this]

theorem tryExact_false_of_lt (rest : List Char) {k : Nat}
    (h : k < digitsPrefix rest) : tryExact rest k = false := by
  unfold tryExact
  simp [boundaryAfter_of_lt rest k h]

theorem tryExact_eq_boundary (rest : List Char) {k : Nat}
    (h : digitsPrefix rest = k) : tryExact rest k = boundaryAfter (rest.drop k) := by
  unfold tryExact
  have : hasKDigits rest k = true := by
    rw [hasKDigits_iff]
    omega
  simp [this]

theorem regexMatch_eq_boundary (prevW : Bool) (s : List Char) :
    regexMatchDigits prevW s = boundaryMatchDigits prevW s := by
  cases s with
  | nil => rfl
  | cons c1 t =>
    cases t with
    | nil => rfl
    | cons c2 rest =>
      simp only [regexMatchDigits, boundaryMatchDigits]
      by_cases hcc : c1 = 'C' ∧ c2 = '#'
      · rw [if_pos hcc, if_pos hcc]
        cases prevW with
        | true => simp
        | false =>
          simp only [Bool.not_false, Bool.true_and, if_false, Bool.false_eq_true]
          rcases Nat.lt_or_ge (digitsPrefix rest) 4 with h4 | h4
          · rw [tryExact_false_of_gt rest (by omega), tryExact_false_of_gt rest (by omega)]
            have hne4 : decide (digitsPrefix rest = 4) = false := by simp; omega
            have hne5 : decide (digitsPrefix rest = 5) = false := by simp; omega
            simp [hne4, hne5]
          · rcases Nat.lt_or_ge (digitsPrefix rest) 6 with h6 | h6
            · interval_cases hD : digitsPrefix rest
              · rw [tryExact_false_of_gt rest (by omega), tryExact_eq_boundary rest hD]
                cases hb : boundaryAfter (rest.drop 4) <;> simp [hb, hD]
              · rw [tryExact_eq_boundary rest hD]
                cases hb : boundaryAfter (rest.drop 5) with
                | true => simp [hb, hD]
                | false =>
                  rw [tryExact_false_of_lt rest (by omega)]
                  simp [hb, hD]
            · rw [tryExact_false_of_lt rest (by omega), tryExact_false_of_lt rest (by omega)]
              have hne4 : decide (digitsPrefix rest = 4) = false := by simp; omega
              have hne5 : decide (digitsPrefix rest = 5) = false := by simp; omega
              simp [hne4, hne5]
      · rw [if_neg hcc, if_neg hcc]

theorem scanFuel_eq_boundary (fuel : Nat) :
    ∀ (prevW : Bool) (s : List Char), scanFuel fuel prevW s = boundaryScanFuel fuel prevW s := by
  induction fuel with
  | zero => intro prevW s; cases s <;> rfl
  | succ n ih =>
    intro prevW s
    cases s with
    | nil => rfl
    | cons c rest =>
      simp only [scanFuel, boundaryScanFuel, regexMatch_eq_boundary]
      cases hm : boundaryMatchDigits prevW (c :: rest) with
      | none => simp [hm, ih]
      | some d => simp [hm, ih]

/-- C8 counterexample: at input `xC#1234` the code extracts nothing (the
leading `\b` fails between the word characters `x` and `C`), while the
claim's context-independent pattern extracts `C#1234`. -/
theorem claim_C8_counterexample :
    extractOrderIds "xC#1234" = [] ∧ specExtract "xC#1234" = ["C#1234"] ∧
      extractOrderIds "xC#1234" ≠ specExtract "xC#1234" := by
  refine ⟨by decide, by decide, by decide⟩

/-- C8 (amended): the extraction returns exactly the non-overlapping,
left-to-right tokens of marker + fixed letter + a maximal run of 4-5 decimal
digits that are delimited by word boundaries on both sides (the character
before the marker and the character after the digits, when present, are
non-word characters). -/
theorem claim_C8 (s : String) : extractOrderIds s = boundaryExtract s :=
  scanFuel_eq_boundary s.data.length false s.data

/- ===== Claim C10 ===== -/

theorem processMatches_spec (lookup : String → Except String (Option Order)) (now : ℤ) :
    ∀ (pre : List String) (bad : String) (post : List String) (err : String),
      (∀ m ∈ pre, ∃ r, lookup m = Except.ok r) → lookup bad = Except.error err →
      processMatches lookup now (pre ++ bad :: post) =
        (pre.map (replyFor lookup now), some err) := by
  intro pre
  induction pre with
  | nil =>
    intro bad post err _ hbad
    simp [processMatches, hbad]
  | cons m pre ih =>
    intro bad post err hpre hbad
    rcases hpre m (List.mem_cons_self m pre) with ⟨r, hr⟩
    have htail := ih bad post err (fun x hx => hpre x (List.mem_cons_of_mem _ hx)) hbad
    cases r with
    | none => simp [processMatches, hr, htail, replyFor]
    | some o => simp [processMatches, hr, htail, replyFor]

/-- C10: the exception handler wraps the whole per-message loop.  If the
fetch of one identifier raises, the handler posts the replies accumulated
for the identifiers before it, then exactly one generic apology, and no
reply at all for the identifiers after the failing one. -/
theorem claim_C10 (lookup : String → Except String (Option Order)) (now : ℤ)
    (lock : Option String) (ev : SlackEvent) (pre : List String) (bad : String)
    (post : List String) (err : String)
    (hg1 : jsTruthyOpt ev.subtype = false) (hg2 : jsTruthyOpt ev.text = true)
    (hg3 : jsTruthyOpt ev.botId = false) (hg4 : lockBlocks lock ev.channel = false)
    (hm : extractOrderIds (ev.text.getD "") = pre ++ bad :: post)
    (hpre : ∀ m ∈ pre, ∃ r, lookup m = Except.ok r)
    (hbad : lookup bad = Except.error err) :
    handleMessage lookup now lock ev = pre.map (replyFor lookup now) ++ [Reply.apology] ∧
      ∀ m ∈ pre, replyFor lookup now m ≠ Reply.apology := by
  constructor
  · have hne : (pre ++ bad :: post).isEmpty = false := by
      cases pre <;> rfl
    simp only [handleMessage, hg1, hg2, hg3, hg4, hm, hne,
      processMatches_spec lookup now pre bad post err hpre hbad]
    simp
  · intro m hmem
    rcases hpre m hmem with ⟨r, hr⟩
    cases r <;> simp [replyFor, hr]

/-- Witness for C2 at a concrete order. -/
theorem claim_C2_witness :
    ((analyzeOrder 0 ordC9).details.map DetailEntry.key).Nodup :=
  (claim_C2 0 ordC9).1

/-- Witness for C3 at a concrete order. -/
theorem claim_C3_witness : 1 ≤ (analyzeOrder 0 emptyOrder).blurbLines.length :=
  claim_C3 0 emptyOrder

/-- Witness for C8 at a concrete input. -/
theorem claim_C8_witness :
    extractOrderIds "see C#12345 and C#123456" =
      boundaryExtract "see C#12345 and C#123456" :=
  claim_C8 "see C#12345 and C#123456"

/-- Witness for C10: a three-identifier message whose second lookup raises
gets one not-found reply, one apology, and nothing for the third. -/
theorem claim_C10_witness :
    handleMessage lookupDemo 0 none eventDemo =
        (["C#1111"].map (replyFor lookupDemo 0)) ++ [Reply.apology] ∧
      ∀ m ∈ ["C#1111"], replyFor lookupDemo 0 m ≠ Reply.apology :=
  claim_C10 lookupDemo 0 none eventDemo ["C#1111"] "C#2222" ["C#3333"] "boom"
    (by decide) (by decide) (by decide) (by decide) (by decide)
    (by intro m hm
        have : m = "C#1111" := by simpa using hm
        exact ⟨none, by rw [this]; rfl⟩)
    (by rfl)
